import Mathlib

/-!
Verification development for the Splitsa backend repository.

Part 1 models the ExpenseAllocator component (spec sections 3, 4, 7).
The component itself (the `ExpenseCalculator` of the FastAPI backend) is
described only by the backend README in the source tree; its code is not
present, so the definitions below are modelled from the specification text.

Part 2 models the request handlers of the MERN server route file
`mern/server/routes/record.js`, which is present in the source tree.
-/

/-- Modelled from the spec: the field of a share named by a `NegativeAmount`
rejection (spec section 4.1, the negative-amount input check). The
ExpenseAllocator code is absent from the source tree. -/
inductive AmountField where
  | paid
  | owed
  deriving DecidableEq

/-- Modelled from the spec: ParticipantShare (spec section 3). A
MonetaryAmount is an exact fixed-scale decimal, represented as an integer
count of currency minor units. The ExpenseAllocator code is absent from
the source tree. -/
structure ParticipantShare where
  participantId : String
  paidAmount : Int
  owedAmount : Int
  deriving DecidableEq

/-- Modelled from the spec: ReceiptTotals (spec section 3), in minor units. -/
structure ReceiptTotals where
  grandTotal : Int
  taxAmount : Int
  deriving DecidableEq

/-- Modelled from the spec: the error taxonomy of spec section 7. -/
inductive ErrorKind where
  | InvalidTotals
  | EmptyShareSet
  | EmptyParticipantSet
  | DuplicateParticipant (id : String)
  | NegativeAmount (id : String) (field : AmountField)
  | PaidSumMismatch
  | OwedSumMismatch
  deriving DecidableEq

/-- Modelled from the spec: AllocationResult (spec section 3): either Valid
with the accepted shares, or Invalid with a structured reason and the
computed discrepancy amount. -/
inductive AllocationResult where
  | Valid (shares : List ParticipantShare)
  | Invalid (reason : ErrorKind) (discrepancy : Int)
  deriving DecidableEq

/-- Modelled from the spec: the value of the named field of a share. -/
def fieldValue (s : ParticipantShare) : AmountField → Int
  | .paid => s.paidAmount
  | .owed => s.owedAmount

/-- Modelled from the spec: first participantId that occurs more than once
(spec section 4.1, the uniqueness input check, identifying the offending id). -/
def findDuplicate : List String → Option String
  | [] => none
  | id :: rest => if id ∈ rest then some id else findDuplicate rest

/-- Modelled from the spec: first share with a negative amount, together
with the offending field (spec section 4.1, the negative-amount check,
identifying the participant and field). -/
def findNegative : List ParticipantShare → Option (String × AmountField)
  | [] => none
  | s :: rest =>
    if s.paidAmount < 0 then some (s.participantId, .paid)
    else if s.owedAmount < 0 then some (s.participantId, .owed)
    else findNegative rest

/-- Modelled from the spec: exact sum of all paidAmount (spec section 4.1
processing step 1). -/
def paidSum (shares : List ParticipantShare) : Int :=
  (shares.map fun s => s.paidAmount).sum

/-- Modelled from the spec: exact sum of all owedAmount (spec section 4.1
processing step 2). -/
def owedSum (shares : List ParticipantShare) : Int :=
  (shares.map fun s => s.owedAmount).sum

/-- Modelled from the spec: `validate(totals, shares, epsilon)` of spec
section 4.1. Input checks in the listed order (totals, non-emptiness,
uniqueness, non-negativity), then the sum checks of processing steps 4-6. -/
def validate (totals : ReceiptTotals) (shares : List ParticipantShare)
    (epsilon : Int) : AllocationResult :=
  if totals.grandTotal < totals.taxAmount then
    .Invalid .InvalidTotals 0
  else if shares.isEmpty then
    .Invalid .EmptyShareSet 0
  else
    match findDuplicate (shares.map fun s => s.participantId) with
    | some id => .Invalid (.DuplicateParticipant id) 0
    | none =>
      match findNegative shares with
      | some (id, f) => .Invalid (.NegativeAmount id f) 0
      | none =>
        if epsilon < |paidSum shares - totals.grandTotal| then
          .Invalid .PaidSumMismatch (paidSum shares - totals.grandTotal)
        else if epsilon < |owedSum shares - totals.grandTotal| then
          .Invalid .OwedSumMismatch (owedSum shares - totals.grandTotal)
        else
          .Valid shares

/-- Modelled from the spec: give `base + 1` to the first `r` participants
and `base` to the rest (spec section 4.2 remainder distribution rule). -/
def allocateOwed (base : Int) : Nat → List String → List ParticipantShare
  | _, [] => []
  | 0, id :: rest => ⟨id, 0, base⟩ :: allocateOwed base 0 rest
  | r + 1, id :: rest => ⟨id, 0, base + 1⟩ :: allocateOwed base r rest

/-- Modelled from the spec: `allocateEvenly(totals, participantIds)` of spec
section 4.2: base = grandTotal / n (integer division), remainder =
grandTotal mod n; the first remainder participants receive base + 1; fails
with EmptyParticipantSet on an empty participant sequence. -/
def allocateEvenly (totals : ReceiptTotals) (participantIds : List String) :
    Except ErrorKind (List ParticipantShare) :=
  if participantIds.isEmpty then
    .error .EmptyParticipantSet
  else
    .ok (allocateOwed (totals.grandTotal / (participantIds.length : Int))
          ((totals.grandTotal % (participantIds.length : Int)).toNat)
          participantIds)

/-- Sum of the owed amounts of a produced share list. -/
def owedTotal (shares : List ParticipantShare) : Int :=
  (shares.map fun s => s.owedAmount).sum

example : allocateEvenly ⟨100, 0⟩ ["a", "b", "c"] =
    .ok [⟨"a", 0, 34⟩, ⟨"b", 0, 33⟩, ⟨"c", 0, 33⟩] := by rfl

example : validate ⟨10, 2⟩ [⟨"a", 10, 10⟩] 0 = .Valid [⟨"a", 10, 10⟩] := by decide

example : validate ⟨10, 0⟩ [⟨"a", 5, 10⟩] 0 =
    .Invalid .PaidSumMismatch (-5) := by decide

example : validate ⟨0, 1⟩ [⟨"a", -5, 0⟩] 0 = .Invalid .InvalidTotals 0 := by decide

lemma findDuplicate_eq_none_of_nodup {l : List String} (h : l.Nodup) :
    findDuplicate l = none := by
  induction l with
  | nil => rfl
  | cons a t ih =>
    have h' := List.nodup_cons.mp h
    simp [findDuplicate, h'.1, ih h'.2]

lemma findNegative_eq_none_of_nonneg {shares : List ParticipantShare}
    (h : ∀ s ∈ shares, 0 ≤ s.paidAmount ∧ 0 ≤ s.owedAmount) :
    findNegative shares = none := by
  induction shares with
  | nil => rfl
  | cons s rest ih =>
    have hs := h s (List.mem_cons_self s rest)
    simp [findNegative, not_lt.mpr hs.1, not_lt.mpr hs.2,
      ih fun x hx => h x (List.mem_cons_of_mem s hx)]

lemma findNegative_some_of_neg {shares : List ParticipantShare}
    (h : ∃ s ∈ shares, s.paidAmount < 0 ∨ s.owedAmount < 0) :
    ∃ id f, findNegative shares = some (id, f) ∧
      ∃ s ∈ shares, s.participantId = id ∧ fieldValue s f < 0 := by
  induction shares with
  | nil => simp at h
  | cons s rest ih =>
    by_cases hp : s.paidAmount < 0
    · exact ⟨s.participantId, .paid, by simp [findNegative, hp],
        s, List.mem_cons_self s rest, rfl, hp⟩
    · by_cases ho : s.owedAmount < 0
      · exact ⟨s.participantId, .owed, by simp [findNegative, hp, ho],
          s, List.mem_cons_self s rest, rfl, ho⟩
      · obtain ⟨x, hx, hxneg⟩ := h
        rcases List.mem_cons.mp hx with rfl | hx'
        · rcases hxneg with h1 | h1
          · exact absurd h1 hp
          · exact absurd h1 ho
        · obtain ⟨id, f, hfind, w, hw, hwid, hwneg⟩ := ih ⟨x, hx', hxneg⟩
          exact ⟨id, f, by simp [findNegative, hp, ho, hfind],
            w, List.mem_cons_of_mem s hw, hwid, hwneg⟩

/-- C1: for epsilon = 0, totals with taxAmount ≤ grandTotal, a non-empty
share list with unique participantId values, all amounts non-negative, and
both the exact paid sum and the exact owed sum equal to grandTotal,
`validate` returns Valid carrying the input shares unchanged. -/
theorem validate_valid_of_consistent (t : ReceiptTotals)
    (shares : List ParticipantShare)
    (htax : t.taxAmount ≤ t.grandTotal) (hne : shares ≠ [])
    (hnodup : (shares.map fun s => s.participantId).Nodup)
    (hnonneg : ∀ s ∈ shares, 0 ≤ s.paidAmount ∧ 0 ≤ s.owedAmount)
    (hpaid : paidSum shares = t.grandTotal)
    (howed : owedSum shares = t.grandTotal) :
    validate t shares 0 = .Valid shares := by
  simp [validate, not_lt.mpr htax, List.isEmpty_iff, hne,
    findDuplicate_eq_none_of_nodup hnodup,
    findNegative_eq_none_of_nonneg hnonneg, hpaid, howed]

/-- C1 witness: a concrete consistent input is accepted. -/
theorem validate_valid_of_consistent_witness :
    validate ⟨10, 2⟩ [⟨"a", 10, 10⟩] 0 = .Valid [⟨"a", 10, 10⟩] :=
  validate_valid_of_consistent ⟨10, 2⟩ [⟨"a", 10, 10⟩]
    (by decide) (by decide) (by decide) (by decide) (by decide) (by decide)

/-- C2: for any share list passing the input checks whose exact paid sum
differs from grandTotal by more than epsilon, `validate` returns Invalid
with reason PaidSumMismatch and discrepancy equal to the exact signed
difference paidSum - grandTotal. -/
theorem validate_paid_sum_mismatch (t : ReceiptTotals)
    (shares : List ParticipantShare) (epsilon : Int)
    (htax : t.taxAmount ≤ t.grandTotal) (hne : shares ≠ [])
    (hnodup : (shares.map fun s => s.participantId).Nodup)
    (hnonneg : ∀ s ∈ shares, 0 ≤ s.paidAmount ∧ 0 ≤ s.owedAmount)
    (hgap : epsilon < |paidSum shares - t.grandTotal|) :
    validate t shares epsilon =
      .Invalid .PaidSumMismatch (paidSum shares - t.grandTotal) := by
  simp [validate, not_lt.mpr htax, List.isEmpty_iff, hne,
    findDuplicate_eq_none_of_nodup hnodup,
    findNegative_eq_none_of_nonneg hnonneg, hgap]

/-- C2 witness: a concrete paid-sum mismatch of -5 is reported exactly. -/
theorem validate_paid_sum_mismatch_witness :
    validate ⟨10, 0⟩ [⟨"a", 5, 10⟩] 0 = .Invalid .PaidSumMismatch (-5) := by
  rw [validate_paid_sum_mismatch ⟨10, 0⟩ [⟨"a", 5, 10⟩] 0
    (by decide) (by decide) (by decide) (by decide) (by decide)]
  decide

/-- C6: `validate` is deterministic: equal totals, equal share sequences and
equal epsilon always give equal results (it is a pure function of its
arguments in this model; no state, no randomness, all arithmetic exact). -/
theorem validate_deterministic (t1 t2 : ReceiptTotals)
    (s1 s2 : List ParticipantShare) (e1 e2 : Int)
    (ht : t1 = t2) (hs : s1 = s2) (he : e1 = e2) :
    validate t1 s1 e1 = validate t2 s2 e2 := by
  subst ht hs he
  rfl

/-- C6 witness: determinism at a concrete input. -/
theorem validate_deterministic_witness :
    validate ⟨1, 0⟩ [⟨"a", 1, 1⟩] 0 = validate ⟨1, 0⟩ [⟨"a", 1, 1⟩] 0 :=
  validate_deterministic ⟨1, 0⟩ ⟨1, 0⟩ [⟨"a", 1, 1⟩] [⟨"a", 1, 1⟩] 0 0 rfl rfl rfl

/-- C5 counterexample: a share with negative paidAmount does not always
yield NegativeAmount: when the totals check fails too, the totals check of
spec section 4.1 runs first, so validate returns InvalidTotals instead. -/
theorem validate_negative_counterexample :
    ((⟨"a", -5, 0⟩ : ParticipantShare).paidAmount < 0) ∧
    validate ⟨0, 1⟩ [⟨"a", -5, 0⟩] 0 = .Invalid .InvalidTotals 0 ∧
    ¬ ∃ id f d, validate ⟨0, 1⟩ [⟨"a", -5, 0⟩] 0 =
      .Invalid (.NegativeAmount id f) d := by
  refine ⟨by decide, by decide, ?_⟩
  rintro ⟨id, f, d, h⟩
  have e : validate ⟨0, 1⟩ [⟨"a", -5, 0⟩] 0 = .Invalid .InvalidTotals 0 := by decide
  rw [e] at h
  simp at h

/-- C5 (amended): for any input passing the totals, non-emptiness and
uniqueness checks in which some share has a negative paidAmount or
owedAmount, `validate` returns Invalid with reason NegativeAmount naming a
participant and a field of that participant that is in fact negative; the
sums are never consulted, so this holds for every epsilon and even when the
paid or owed sums also mismatch. -/
theorem validate_negative_amount (t : ReceiptTotals)
    (shares : List ParticipantShare) (epsilon : Int)
    (htax : t.taxAmount ≤ t.grandTotal) (hne : shares ≠ [])
    (hnodup : (shares.map fun s => s.participantId).Nodup)
    (hneg : ∃ s ∈ shares, s.paidAmount < 0 ∨ s.owedAmount < 0) :
    ∃ id f, validate t shares epsilon = .Invalid (.NegativeAmount id f) 0 ∧
      ∃ s ∈ shares, s.participantId = id ∧ fieldValue s f < 0 := by
  obtain ⟨id, f, hfind, hwit⟩ := findNegative_some_of_neg hneg
  refine ⟨id, f, ?_, hwit⟩
  simp [validate, not_lt.mpr htax, List.isEmpty_iff, hne,
    findDuplicate_eq_none_of_nodup hnodup, hfind]

/-- C5 witness: a concrete negative paidAmount (with mismatching sums) is
reported as NegativeAmount for that participant and field. -/
theorem validate_negative_amount_witness :
    ∃ id f, validate ⟨10, 0⟩ [⟨"a", -5, 10⟩] 0 =
        .Invalid (.NegativeAmount id f) 0 ∧
      ∃ s ∈ [(⟨"a", -5, 10⟩ : ParticipantShare)],
        s.participantId = id ∧ fieldValue s f < 0 :=
  validate_negative_amount ⟨10, 0⟩ [⟨"a", -5, 10⟩] 0
    (by decide) (by decide) (by decide) (by decide)

lemma allocateOwed_eq (base : Int) (r : Nat) (ids : List String) :
    allocateOwed base r ids =
      (ids.take r).map (fun pid => ⟨pid, 0, base + 1⟩) ++
      (ids.drop r).map (fun pid => ⟨pid, 0, base⟩) := by
  induction ids generalizing r with
  | nil => cases r <;> simp [allocateOwed]
  | cons id rest ih =>
    cases r with
    | zero => simp [allocateOwed, ih 0]
    | succ r => simp [allocateOwed, ih r]

lemma allocateEvenly_ok (t : ReceiptTotals) (ids : List String) (h : ids ≠ []) :
    allocateEvenly t ids =
      .ok (allocateOwed (t.grandTotal / (ids.length : Int))
        ((t.grandTotal % (ids.length : Int)).toNat) ids) := by
  simp [allocateEvenly, List.isEmpty_iff, h]

lemma owedMap_allocateOwed (base : Int) (r : Nat) (ids : List String) :
    (allocateOwed base r ids).map (fun s => s.owedAmount) =
      List.replicate (min r ids.length) (base + 1) ++
      List.replicate (ids.length - r) base := by
  induction ids generalizing r with
  | nil => cases r <;> simp [allocateOwed]
  | cons id rest ih =>
    cases r with
    | zero => simp [allocateOwed, ih 0, List.replicate_succ]
    | succ r => simp [allocateOwed, ih r, Nat.succ_min_succ, List.replicate_succ]

/-- C3: the owed amounts produced by `allocateEvenly` on any non-empty
participant sequence sum (in integer minor units) to exactly grandTotal,
and the 100-split among 3 participants gives the multiset {34, 33, 33}. -/
theorem allocateEvenly_conserves_total :
    (∀ (t : ReceiptTotals) (ids : List String), ids ≠ [] →
       ∃ res, allocateEvenly t ids = .ok res ∧ owedTotal res = t.grandTotal) ∧
    ∃ res, allocateEvenly ⟨100, 0⟩ ["a", "b", "c"] = .ok res ∧
      (↑(res.map fun s => s.owedAmount) : Multiset Int) = {34, 33, 33} := by
  constructor
  · intro t ids h
    refine ⟨_, allocateEvenly_ok t ids h, ?_⟩
    have hn : 0 < ids.length := List.length_pos.mpr h
    have hN : (0 : Int) < (ids.length : Int) := by exact_mod_cast hn
    have hr0 : 0 ≤ t.grandTotal % (ids.length : Int) :=
      Int.emod_nonneg _ (ne_of_gt hN)
    have hrN := Int.emod_lt_of_pos t.grandTotal hN
    have hcast : (((t.grandTotal % (ids.length : Int)).toNat : Nat) : Int) =
        t.grandTotal % (ids.length : Int) := Int.toNat_of_nonneg hr0
    have hrn : (t.grandTotal % (ids.length : Int)).toNat ≤ ids.length := by
      omega
    rw [owedTotal, owedMap_allocateOwed, min_eq_left hrn, List.sum_append,
      List.sum_replicate, List.sum_replicate, nsmul_eq_mul, nsmul_eq_mul,
      Nat.cast_sub hrn, hcast]
    have key := Int.ediv_add_emod t.grandTotal (ids.length : Int)
    linear_combination key
  · exact ⟨[⟨"a", 0, 34⟩, ⟨"b", 0, 33⟩, ⟨"c", 0, 33⟩], by rfl, by decide⟩

/-- C3 witness: conservation at the concrete total 7 with 2 participants. -/
theorem allocateEvenly_conserves_total_witness :
    ∃ res, allocateEvenly ⟨7, 0⟩ ["a", "b"] = .ok res ∧ owedTotal res = 7 :=
  allocateEvenly_conserves_total.1 ⟨7, 0⟩ ["a", "b"] (by decide)

/-- C4: on a non-empty participant sequence of length n, with base =
grandTotal / n (integer division) and r = grandTotal mod n (so r < n),
`allocateEvenly` gives owed = base + 1 to exactly the first r participants
in the caller-provided order, owed = base to the remaining ones, and
paidAmount = 0 to every produced share. -/
theorem allocateEvenly_remainder_assignment (t : ReceiptTotals)
    (ids : List String) (h : ids ≠ []) :
    (t.grandTotal % (ids.length : Int)).toNat < ids.length ∧
    allocateEvenly t ids =
      .ok ((ids.take (t.grandTotal % (ids.length : Int)).toNat).map
             (fun pid => ⟨pid, 0, t.grandTotal / (ids.length : Int) + 1⟩) ++
           (ids.drop (t.grandTotal % (ids.length : Int)).toNat).map
             (fun pid => ⟨pid, 0, t.grandTotal / (ids.length : Int)⟩)) ∧
    ∀ res, allocateEvenly t ids = .ok res → ∀ s ∈ res, s.paidAmount = 0 := by
  have hn : 0 < ids.length := List.length_pos.mpr h
  have hN : (0 : Int) < (ids.length : Int) := by exact_mod_cast hn
  have hr0 : 0 ≤ t.grandTotal % (ids.length : Int) :=
    Int.emod_nonneg _ (ne_of_gt hN)
  have hrN := Int.emod_lt_of_pos t.grandTotal hN
  have hrn : (t.grandTotal % (ids.length : Int)).toNat < ids.length := by
    omega
  refine ⟨hrn, ?_, ?_⟩
  · rw [allocateEvenly_ok t ids h, allocateOwed_eq]
  · intro res hres s hs
    rw [allocateEvenly_ok t ids h] at hres
    injection hres with hres
    subst hres
    rw [allocateOwed_eq] at hs
    rcases List.mem_append.mp hs with hmem | hmem <;>
      obtain ⟨pid, _, rfl⟩ := List.mem_map.mp hmem <;> rfl

/-- C4 witness: splitting 7 between two participants gives 4 then 3, with
paid amounts 0. -/
theorem allocateEvenly_remainder_assignment_witness :
    allocateEvenly ⟨7, 0⟩ ["a", "b"] = .ok [⟨"a", 0, 4⟩, ⟨"b", 0, 3⟩] := by
  rw [(allocateEvenly_remainder_assignment ⟨7, 0⟩ ["a", "b"] (by decide)).2.1]
  rfl

/-- C7: for one total and two participant sequences that are permutations
of each other, the owed amounts produced by `allocateEvenly` form the same
multiset (which participant receives a remainder unit may differ). -/
theorem allocateEvenly_perm_invariant (t : ReceiptTotals)
    (ids1 ids2 : List String) (hperm : ids1.Perm ids2)
    (res1 res2 : List ParticipantShare)
    (h1 : allocateEvenly t ids1 = .ok res1)
    (h2 : allocateEvenly t ids2 = .ok res2) :
    (↑(res1.map fun s => s.owedAmount) : Multiset Int) =
      ↑(res2.map fun s => s.owedAmount) := by
  have hlen := hperm.length_eq
  have hne1 : ids1 ≠ [] := by
    intro e
    rw [e] at h1
    simp [allocateEvenly] at h1
  have hne2 : ids2 ≠ [] := by
    intro e
    rw [e] at h2
    simp [allocateEvenly] at h2
  rw [allocateEvenly_ok t ids1 hne1] at h1
  rw [allocateEvenly_ok t ids2 hne2] at h2
  injection h1 with h1
  injection h2 with h2
  subst h1 h2
  rw [owedMap_allocateOwed, owedMap_allocateOwed, hlen]

/-- C7 witness: reordering two participants leaves the owed multiset {4, 3}
for a split of 7. -/
theorem allocateEvenly_perm_invariant_witness :
    (↑([(⟨"a", 0, 4⟩ : ParticipantShare), ⟨"b", 0, 3⟩].map
        fun s => s.owedAmount) : Multiset Int) =
      ↑([(⟨"b", 0, 4⟩ : ParticipantShare), ⟨"a", 0, 3⟩].map
        fun s => s.owedAmount) :=
  allocateEvenly_perm_invariant ⟨7, 0⟩ ["a", "b"] ["b", "a"] (by decide)
    _ _ (by rfl) (by rfl)

/-- JavaScript value, as far as the record.js route handlers inspect request
bodies: null and undefined, booleans, integer numbers, strings, arrays and
plain objects. -/
inductive JSValue where
  | undefined
  | null
  | bool (b : Bool)
  | num (n : Int)
  | str (s : String)
  | array (elems : List JSValue)
  | object (fields : List (String × JSValue))

/-- JavaScript truthiness, as tested by `!jsonData` in record.js. -/
def truthy : JSValue → Bool
  | .undefined => false
  | .null => false
  | .bool b => b
  | .num n => n != 0
  | .str s => s != ""
  | .array _ => true
  | .object _ => true

/-- Property lookup on an object field list; absent keys give undefined. -/
def jsLookup : List (String × JSValue) → String → JSValue
  | [], _ => .undefined
  | (k', v) :: rest, k => if k' == k then v else jsLookup rest k

/-- JavaScript property access `v[k]`, as used by record.js: `.length` on
arrays and strings, named fields on plain objects, undefined elsewhere. -/
def getProp (v : JSValue) (k : String) : JSValue :=
  match v with
  | .object fields => jsLookup fields k
  | .str s => if k == "length" then .num s.length else .undefined
  | .array l => if k == "length" then .num l.length else .undefined
  | _ => .undefined

/-- Strict equality `=== 0` against a JavaScript value. -/
def strictEqZero : JSValue → Bool
  | .num n => n == 0
  | _ => false

/-- Outcome of the POST /record/upload handler, up to the database call:
either the 400 response (no insertion) or an insertMany attempt with the
given data. -/
inductive UploadOutcome where
  | badRequest (message : String)
  | insertMany (data : JSValue)

/-- The POST /record/upload handler of record.js lines 9-26: rejects with
400 "No data provided" when `!jsonData || jsonData.length === 0`, otherwise
passes the body unfiltered to insertMany. -/
def uploadHandler (body : JSValue) : UploadOutcome :=
  if !truthy body || strictEqZero (getProp body "length") then
    .badRequest "No data provided"
  else
    .insertMany body

/-- Outcome of the DELETE /record/delete handler, up to the database call:
either a 400 response (nothing deleted) or a deleteMany whose query holds
the given ids. -/
inductive DeleteOutcome where
  | badRequest (message : String)
  | deleteMany (ids : List String)
  deriving DecidableEq

/-- Hexadecimal digit test used by ObjectId validity. -/
def isHexDigit (c : Char) : Bool :=
  c.isDigit || (('a' ≤ c) && (c ≤ 'f')) || (('A' ≤ c) && (c ≤ 'F'))

/-- `ObjectId.isValid` of the mongodb driver on a string id: 24 hexadecimal
characters. -/
def isValidObjectId (s : String) : Bool :=
  s.length == 24 && s.toList.all isHexDigit

/-- The ids field of the DELETE /record/delete request body: either not an
array (including absent), or an array of id strings. -/
inductive IdsField where
  | notArray
  | array (ids : List String)

/-- The DELETE /record/delete handler of record.js lines 101-128, up to the
database call: 400 unless ids is a non-empty array; the ids are filtered by
ObjectId.isValid; 400 if no id survives; otherwise deleteMany on exactly
the surviving ids. -/
def deleteManyHandler : IdsField → DeleteOutcome
  | .notArray => .badRequest "Invalid or empty list of IDs"
  | .array ids =>
    if ids.length == 0 then
      .badRequest "Invalid or empty list of IDs"
    else if (ids.filter isValidObjectId).length == 0 then
      .badRequest "No valid IDs provided"
    else
      .deleteMany (ids.filter isValidObjectId)

/-- The document built by the POST /record handler of record.js lines
65-79: exactly the name, position and level fields of the request body. -/
def postRecordDoc (body : JSValue) : List (String × JSValue) :=
  [("name", getProp body "name"),
   ("position", getProp body "position"),
   ("level", getProp body "level")]

/-- The $set document built by the PATCH /record/:id handler of record.js
lines 81-99: exactly the name, position and level fields of the body. -/
def patchSetDoc (body : JSValue) : List (String × JSValue) :=
  [("name", getProp body "name"),
   ("position", getProp body "position"),
   ("level", getProp body "level")]

/-- C8: the POST /record/upload handler answers 400 "No data provided"
(inserting nothing) for a null or undefined body and for any body whose
length property is strictly 0; it reaches insertMany only with the
unfiltered body and only when the length property is not strictly 0; the
non-empty non-array object {} bypasses the emptiness check and reaches
insertMany. -/
theorem uploadHandler_spec :
    (∀ body : JSValue, body = .null ∨ body = .undefined ∨
        strictEqZero (getProp body "length") = true →
      uploadHandler body = .badRequest "No data provided") ∧
    (∀ body data, uploadHandler body = .insertMany data →
      data = body ∧ strictEqZero (getProp body "length") = false) ∧
    uploadHandler (.object []) = .insertMany (.object []) := by
  refine ⟨?_, ?_, rfl⟩
  · intro body h
    rcases h with rfl | rfl | h
    · rfl
    · rfl
    · simp [uploadHandler, h]
  · intro body data h
    unfold uploadHandler at h
    by_cases hc : (!truthy body || strictEqZero (getProp body "length")) = true
    · rw [if_pos hc] at h
      exact UploadOutcome.noConfusion h
    · rw [if_neg hc] at h
      injection h with h
      refine ⟨h.symm, ?_⟩
      cases hs : strictEqZero (getProp body "length")
      · rfl
      · exact absurd (by rw [hs]; simp) hc

/-- C8 witness: a null body and an empty array body are both rejected. -/
theorem uploadHandler_spec_witness :
    uploadHandler .null = .badRequest "No data provided" ∧
    uploadHandler (.array []) = .badRequest "No data provided" :=
  ⟨uploadHandler_spec.1 .null (Or.inl rfl),
   uploadHandler_spec.1 (.array []) (Or.inr (Or.inr (by decide)))⟩

/-- C9: the DELETE /record/delete handler deletes only ids passing
ObjectId validity: every id in a deleteMany query is valid, the query is
exactly the filtered input, not-an-array and empty-array requests get 400
with nothing deleted, and so does any request whose ids are all invalid. -/
theorem deleteManyHandler_spec :
    (∀ f ids', deleteManyHandler f = .deleteMany ids' →
       ∀ id ∈ ids', isValidObjectId id = true) ∧
    (∀ ids ids', deleteManyHandler (.array ids) = .deleteMany ids' →
       ids' = ids.filter isValidObjectId) ∧
    deleteManyHandler .notArray = .badRequest "Invalid or empty list of IDs" ∧
    deleteManyHandler (.array []) = .badRequest "Invalid or empty list of IDs" ∧
    (∀ ids, (∀ id ∈ ids, isValidObjectId id = false) →
       ∃ msg, deleteManyHandler (.array ids) = .badRequest msg) := by
  refine ⟨?_, ?_, rfl, rfl, ?_⟩
  · intro f ids' h id hid
    cases f with
    | notArray => exact DeleteOutcome.noConfusion h
    | array ids =>
      simp only [deleteManyHandler] at h
      by_cases h1 : (ids.length == 0) = true
      · rw [if_pos h1] at h
        exact DeleteOutcome.noConfusion h
      · rw [if_neg h1] at h
        by_cases h2 : ((ids.filter isValidObjectId).length == 0) = true
        · rw [if_pos h2] at h
          exact DeleteOutcome.noConfusion h
        · rw [if_neg h2] at h
          injection h with h
          subst h
          exact (List.mem_filter.mp hid).2
  · intro ids ids' h
    simp only [deleteManyHandler] at h
    by_cases h1 : (ids.length == 0) = true
    · rw [if_pos h1] at h
      exact DeleteOutcome.noConfusion h
    · rw [if_neg h1] at h
      by_cases h2 : ((ids.filter isValidObjectId).length == 0) = true
      · rw [if_pos h2] at h
        exact DeleteOutcome.noConfusion h
      · rw [if_neg h2] at h
        injection h with h
        exact h.symm
  · intro ids hall
    by_cases h1 : (ids.length == 0) = true
    · exact ⟨"Invalid or empty list of IDs",
        by simp only [deleteManyHandler]; rw [if_pos h1]⟩
    · have hfil : ids.filter isValidObjectId = [] :=
        List.filter_eq_nil_iff.mpr fun a ha => by simp [hall a ha]
      exact ⟨"No valid IDs provided",
        by simp only [deleteManyHandler]; rw [if_neg h1, if_pos (by simp [hfil])]⟩

/-- C9 witness: an id reaching a concrete deleteMany query is valid. -/
theorem deleteManyHandler_spec_witness :
    isValidObjectId "0123456789abcdef01234567" = true :=
  deleteManyHandler_spec.1 (.array ["0123456789abcdef01234567", "nope"])
    ["0123456789abcdef01234567"] (by decide)
    "0123456789abcdef01234567" (by decide)

/-- C10: the POST /record and PATCH /record/:id handlers project the body
to exactly the keys name, position and level: the inserted document and the
$set document carry exactly those keys, and any other key of the request
body is absent from them. -/
theorem recordProjection_spec :
    (∀ body : JSValue,
       (postRecordDoc body).map Prod.fst = ["name", "position", "level"] ∧
       (patchSetDoc body).map Prod.fst = ["name", "position", "level"]) ∧
    (∀ (body : JSValue) (k : String),
       k ≠ "name" → k ≠ "position" → k ≠ "level" →
       (postRecordDoc body).lookup k = none ∧
       (patchSetDoc body).lookup k = none) := by
  refine ⟨fun body => ⟨rfl, rfl⟩, ?_⟩
  intro body k h1 h2 h3
  have e1 : (k == "name") = false := beq_eq_false_iff_ne.mpr h1
  have e2 : (k == "position") = false := beq_eq_false_iff_ne.mpr h2
  have e3 : (k == "level") = false := beq_eq_false_iff_ne.mpr h3
  constructor <;> simp [postRecordDoc, patchSetDoc, List.lookup, e1, e2, e3]

/-- C10 witness: an extra body field does not reach either document. -/
theorem recordProjection_spec_witness :
    (postRecordDoc (.object [("extra", .num 1)])).lookup "extra" = none ∧
    (patchSetDoc (.object [("extra", .num 1)])).lookup "extra" = none :=
  recordProjection_spec.2 (.object [("extra", .num 1)]) "extra"
    (by decide) (by decide) (by decide)
